import Mathlib

/-!
# auth-service: a shallow embedding of `src/main.go`

The forward-authentication handler of `nibbleai/auth-service`, embedded
function by function.  Go code that can panic or that performs effects
(`log.Printf`, `time.Sleep`) runs in the small monad `Go`: an outcome (a value
or a run-time panic) together with the trace of effects performed so far.

The standard-library calls the handler makes are modelled at the call
boundary:

* `r.Cookie`, `r.URL.Query()`: the request carries the cookies and the
  `url.Values` map that `net/http` and `net/url` parse out of it;
* `os.LookupEnv`, `os.ReadFile`, `time.Now`: read from an explicit `Env`;
* `json.Unmarshal`: decoding of a JSON value into `NibbleConfig`, after the
  syntax check of `encoding/json`;
* `net.SplitHostPort`: transcribed from package `net`;
* `w.WriteHeader`, `http.SetCookie`, `http.Redirect`: updates of a
  `ResponseWriter` record, with the rewriting `net/http` applies to what it
  is handed: `http.SetCookie` sanitises the value of the cookie, and
  `http.Redirect` makes a target without scheme and host absolute against
  the request path, cleans it and escapes its non-ASCII bytes.

Go strings are byte strings; they are modelled by `String`, and `len` by the
UTF-8 byte size.
-/

set_option autoImplicit false

namespace AuthService

/-! ## Effects and panics -/

/-- An observable effect of the program besides its HTTP response. -/
inductive Event where
  /-- A line written by `log.Printf` / `log.Println`. -/
  | log (line : String)
  /-- A call `time.Sleep(d)`, with `d` in nanoseconds. -/
  | sleep (ns : Nat)
  deriving DecidableEq, Repr

/-- How a piece of Go code ends: it returns a value or it panics. -/
inductive Outcome (α : Type) where
  | ret (a : α)
  | panic (msg : String)
  deriving DecidableEq, Repr

/-- A Go computation: its outcome and the effects it performed, in order. -/
structure Go (α : Type) where
  outcome : Outcome α
  trace : List Event
  deriving DecidableEq, Repr

/-- Sequencing: the effects of the first computation, then, unless it
panicked, those of the second. -/
def Go.bind {α β : Type} (m : Go α) (f : α → Go β) : Go β :=
  match m.outcome with
  | Outcome.ret a => ⟨(f a).outcome, m.trace ++ (f a).trace⟩
  | Outcome.panic msg => ⟨Outcome.panic msg, m.trace⟩

instance : Monad Go where
  pure a := ⟨Outcome.ret a, []⟩
  bind := Go.bind

/-- The call `log.Println(line)` (also `log.Printf` with the line formatted). -/
def logLine (line : String) : Go Unit := ⟨Outcome.ret (), [Event.log line]⟩

/-- The call `time.Sleep(d)`. -/
def timeSleep (ns : Nat) : Go Unit := ⟨Outcome.ret (), [Event.sleep ns]⟩

/-- The index expression `xs[0]` on a slice: panics when the slice is empty. -/
def index0 (xs : List String) : Go String :=
  match xs with
  | x :: _ => ⟨Outcome.ret x, []⟩
  | [] => ⟨Outcome.panic "runtime error: index out of range [0] with length 0", []⟩

/-- A Go `error` value: `none` is `nil`, `some msg` an error with that text. -/
abbrev GoError := Option String

/-- The builtin `len` of a Go string: its number of bytes. -/
def len (s : String) : Nat := s.utf8ByteSize

/-! ## Constants and types of `main.go` -/

def cookieName : String := "nibble_auth_token"
def cookieMaxAge : Nat := 3600 * 24
def defaultPort : String := "10001"
def tokenParamName : String := "token"
def redirectParamName : String := "redirect_to"
def defaultRedirectUrl : String := "/"
def defaultAuthEndpoint : String := "/auth"
def configLocationEnvVar : String := "NIBBLE_CONFIG_LOCATION"
def defaultConfigLocation : String := "/etc/nibble/config.json"

/-- The Go struct `NibbleConfig`; its zero value has both fields empty. -/
structure NibbleConfig where
  Token : String := ""
  WorkingDir : String := ""
  deriving DecidableEq, Repr

/-- The Go type `AuthMethod` (`None = iota`, `Cookie`, `QueryParam`). -/
inductive AuthMethod where
  | None
  | Cookie
  | QueryParam
  deriving DecidableEq, Repr

/-- Go `time.Millisecond`: durations are counted in nanoseconds. -/
def Millisecond : Nat := 1000000

/-- Go `time.Second`. -/
def Second : Nat := 1000 * Millisecond

/-! ## `authenticate` -/

/-- Go `authenticate`: sleep 100 ms, then compare the configured token with
the presented one. -/
def authenticate (config : NibbleConfig) (token : String) : Go Bool := do
  timeSleep (100 * Millisecond)
  return config.Token == token

/-! ## Requests, cookies and responses (package `net/http`) -/

/-- The fields of `http.Cookie` this program reads or writes; `Expires` is an
instant in nanoseconds, the zero value meaning that it is unset. -/
structure Cookie where
  Name : String := ""
  Value : String := ""
  Domain : String := ""
  Expires : Nat := 0
  MaxAge : Nat := 0
  Secure : Bool := false
  HttpOnly : Bool := false
  deriving DecidableEq, Repr

/-- The Go type `url.Values`, a map from a key to its list of values, kept as
an association list in which the first entry of a key is the map entry. -/
abbrev Values := List (String × List String)

/-- The map index `m[key]` in its two-result form `v, ok := m[key]`. -/
def Values.index (m : Values) (key : String) : List String × Bool :=
  match m.lookup key with
  | some v => (v, true)
  | none => ([], false)

/-- An inbound `*http.Request`: its `Host`, the cookies `net/http` parses out
of the `Cookie` headers (in header order), the map `r.URL.Query()`, and the
path `r.URL.Path`, which is the endpoint the handler is registered at. -/
structure Request where
  Host : String := ""
  Cookies : List Cookie := []
  Query : Values := []
  Path : String := defaultAuthEndpoint
  deriving DecidableEq, Repr

/-- The method `r.Cookie(name)`: the first cookie of that name, or
`http.ErrNoCookie`. -/
def Request.Cookie (r : Request) (name : String) : Option Cookie × GoError :=
  match r.Cookies.find? (fun c => c.Name == name) with
  | some c => (some c, none)
  | none => (none, some "http: named cookie not present")

/-- Every key of the query map has at least one value, as in every map built
by `URL.Query()`. -/
def Request.QueryWF (r : Request) : Prop :=
  ∀ kv ∈ r.Query, kv.2 ≠ []

instance (r : Request) : Decidable r.QueryWF := by
  unfold Request.QueryWF; infer_instance

/-- A `Set-Cookie` header line as `http.SetCookie` writes it: the name, the
value after the `=` sign, and the attributes `Max-Age` (0 when absent),
`HttpOnly` and `Secure`.  The attributes `Domain` and `Expires`, which
`net/http` validates and formats before it writes them, are not recorded. -/
structure SetCookieHeader where
  Name : String := ""
  Value : String := ""
  MaxAge : Nat := 0
  HttpOnly : Bool := false
  Secure : Bool := false
  deriving DecidableEq, Repr

/-- What the handler has done to its `http.ResponseWriter`: the status code
sent, the `Set-Cookie` header lines written by `http.SetCookie`, and the
`Location` header written by `http.Redirect`. -/
structure ResponseWriter where
  status : Option Nat := none
  SetCookie : List SetCookieHeader := []
  Location : Option String := none
  deriving DecidableEq, Repr

def StatusForbidden : Nat := 403

/-- The method `w.WriteHeader(code)`: the first status sent stands. -/
def WriteHeader (w : ResponseWriter) (code : Nat) : ResponseWriter :=
  match w.status with
  | some _ => w
  | none => { w with status := some code }

/-! ## The environment: variables, files, clock -/

/-- A JSON value, as the text of a file denotes it. -/
inductive JSON where
  | null
  | bool (b : Bool)
  | number (lit : String)
  | string (s : String)
  | array (elems : List JSON)
  | object (members : List (String × JSON))

/-- The bytes of a file as `encoding/json` sees them: either they are not a
JSON text (the empty input included), or they are the text of a value. -/
inductive Bytes where
  | invalid
  | text (v : JSON)

/-- What the process reads from outside: its environment variables, the
readable files, and the instant `time.Now()` reports (nanoseconds). -/
structure Env where
  environ : List (String × String) := []
  files : List (String × Bytes) := []
  now : Nat := 0

/-- The call `os.LookupEnv(key)`. -/
def Env.LookupEnv (env : Env) (key : String) : String × Bool :=
  match env.environ.lookup key with
  | some v => (v, true)
  | none => ("", false)

/-- The call `os.ReadFile(name)`: the bytes, or no bytes and an error. -/
def Env.ReadFile (env : Env) (name : String) : Bytes × GoError :=
  match env.files.lookup name with
  | some b => (b, none)
  | none => (Bytes.invalid, some ("open " ++ name ++ ": no such file or directory"))

/-! ## `json.Unmarshal` into `NibbleConfig` (package `encoding/json`) -/

/-- The two fields of `NibbleConfig`, in declaration order. -/
inductive ConfigField where
  | Token
  | WorkingDir
  deriving DecidableEq, Repr

/-- The name in the `json:"..."` tag of a field. -/
def ConfigField.jsonName : ConfigField → String
  | ConfigField.Token => "token"
  | ConfigField.WorkingDir => "working_dir"

/-- Case folding of one character of an object key, as far as it can meet an
ASCII field name: upper case to lower case, the Kelvin sign to `k` and the long
s to `s`. -/
def foldRune (c : Char) : Char :=
  if c = Char.ofNat 0x212A then 'k'
  else if c = Char.ofNat 0x17F then 's'
  else c.toLower

/-- Case folding of an object key. -/
def foldName (key : String) : List Char := key.data.map foldRune

/-- The struct field an object key decodes into: the field whose name is the
key exactly, else the first field whose name matches up to case. -/
def fieldOfKey (key : String) : Option ConfigField :=
  let fields := [ConfigField.Token, ConfigField.WorkingDir]
  match fields.find? (fun f => f.jsonName == key) with
  | some f => some f
  | none => fields.find? (fun f => foldName f.jsonName == foldName key)

/-- The word `encoding/json` uses for the kind of a value in a type error. -/
def JSON.kind : JSON → String
  | JSON.null => "null"
  | JSON.bool _ => "bool"
  | JSON.number _ => "number"
  | JSON.string _ => "string"
  | JSON.array _ => "array"
  | JSON.object _ => "object"

/-- Storing a string into a field of the struct. -/
def NibbleConfig.set (config : NibbleConfig) (f : ConfigField) (s : String) :
    NibbleConfig :=
  match f with
  | ConfigField.Token => { config with Token := s }
  | ConfigField.WorkingDir => { config with WorkingDir := s }

/-- The decoder keeps only the first error it meets (`saveError`). -/
def saveError (saved : GoError) (err : String) : GoError :=
  match saved with
  | some e => some e
  | none => some err

/-- Decoding one member of an object into the struct: a key that names no
field is skipped; a string is stored; `null` leaves a string field as it is;
any other value is a type error, saved, and decoding goes on. -/
def decodeMember (st : NibbleConfig × GoError) (member : String × JSON) :
    NibbleConfig × GoError :=
  match fieldOfKey member.1 with
  | none => st
  | some f =>
    match member.2 with
    | JSON.string s => (st.1.set f s, st.2)
    | JSON.null => st
    | v => (st.1, saveError st.2
        ("json: cannot unmarshal " ++ v.kind ++ " into Go struct field NibbleConfig." ++
          f.jsonName ++ " of type string"))

/-- The call `json.Unmarshal(data, &config)`: bytes that are not a JSON text
are a syntax error reported before anything is stored; an object is decoded
member by member; `null` stores nothing; any other value is a type error. -/
def Unmarshal (data : Bytes) (config : NibbleConfig) : NibbleConfig × GoError :=
  match data with
  | Bytes.invalid => (config, some "invalid character looking for beginning of value")
  | Bytes.text (JSON.object members) => members.foldl decodeMember (config, none)
  | Bytes.text JSON.null => (config, none)
  | Bytes.text v =>
    (config, some ("json: cannot unmarshal " ++ v.kind ++ " into Go value of type main.NibbleConfig"))

/-! ## `net.SplitHostPort` (package `net`) -/

/-- Go `bytealg.IndexByteString`: position of the first `c` in `s`, if any. -/
def IndexByteString (s : List Char) (c : Char) : Option Nat :=
  match s with
  | [] => none
  | x :: xs => if x = c then some 0 else (IndexByteString xs c).map (· + 1)

/-- Go `bytealg.LastIndexByteString`: position of the last `c` in `s`, if any. -/
def LastIndexByteString (s : List Char) (c : Char) : Option Nat :=
  match s with
  | [] => none
  | x :: xs =>
    match LastIndexByteString xs c with
    | some i => some (i + 1)
    | none => if x = c then some 0 else none

/-- The error result of `SplitHostPort`: empty host and port and an
`AddrError` for the address. -/
def addrErr (addr why : String) : String × String × GoError :=
  ("", "", some ("address " ++ addr ++ ": " ++ why))

/-- Go `net.SplitHostPort`: splits `host:port`, `[host]:port` into host and
port; an address without a port, or with stray colons or brackets, is an
error, with empty host and port. -/
def SplitHostPort (hostport : String) : String × String × GoError :=
  let s := hostport.data
  let missingPort := "missing port in address"
  let tooManyColons := "too many colons in address"
  -- the checks after the host is found; `j`, `k` bound the bracket search
  let finish (host : List Char) (i j k : Nat) : String × String × GoError :=
    if (IndexByteString (s.drop j) '[').isSome then
      addrErr hostport "unexpected '[' in address"
    else if (IndexByteString (s.drop k) ']').isSome then
      addrErr hostport "unexpected ']' in address"
    else (String.mk host, String.mk (s.drop (i + 1)), none)
  match LastIndexByteString s ':' with
  | none => addrErr hostport missingPort
  | some i =>
    if s.head? = some '[' then
      match IndexByteString s ']' with
      | none => addrErr hostport "missing ']' in address"
      | some e =>
        if e + 1 = s.length then addrErr hostport missingPort
        else if e + 1 = i then finish ((s.drop 1).take (e - 1)) i 1 (e + 1)
        else if (s.drop (e + 1)).head? = some ':' then addrErr hostport tooManyColons
        else addrErr hostport missingPort
    else
      let host := s.take i
      if (IndexByteString host ':').isSome then addrErr hostport tooManyColons
      else finish host i 0 0

/-! ## `http.SetCookie` (package `net/http`) -/

/-- Go `httpguts.IsTokenRune`: the characters of an HTTP token, which are the
ASCII letters and digits and the marks ``!#$%&'*+-.^_`|~``. -/
def isTokenRune (c : Char) : Bool :=
  c.isAlphanum || "!#$%&*+-.^_|~".data.contains c || c.toNat = 39 || c.toNat = 96

/-- Go `isCookieNameValid`: the name is a non-empty HTTP token. -/
def isCookieNameValid (raw : String) : Bool :=
  raw ≠ "" && raw.data.all isTokenRune

/-- Go `validCookieValueByte`: a printable ASCII byte other than the double
quote (0x22), the semicolon (0x3b) and the backslash (0x5c).  Every byte of a
non-ASCII character fails the test, so the test is made on characters. -/
def validCookieValueByte (c : Char) : Bool :=
  0x20 ≤ c.toNat && c.toNat < 0x7f && c.toNat ≠ 0x22 && c.toNat ≠ 0x3b && c.toNat ≠ 0x5c

/-- Go `sanitizeCookieValue`, for a cookie that is not `Quoted`: the bytes
that are not valid in a cookie value are dropped, and what is left is put in
double quotes when it holds a space or a comma. -/
def sanitizeCookieValue (v : String) : String :=
  let kept := v.data.filter validCookieValueByte
  if kept.length = 0 then String.mk kept
  else if kept.any (fun c => c = ' ' || c = ',') then
    String.mk ([Char.ofNat 0x22] ++ kept ++ [Char.ofNat 0x22])
  else String.mk kept

/-- The header line the method `cookie.String()` writes for a cookie whose
name is valid. -/
def Cookie.header (c : Cookie) : SetCookieHeader :=
  { Name := c.Name
    Value := sanitizeCookieValue c.Value
    MaxAge := c.MaxAge
    HttpOnly := c.HttpOnly
    Secure := c.Secure }

/-- The call `http.SetCookie(w, &cookie)`: one more `Set-Cookie` header line,
unless the name of the cookie is invalid, when nothing is written. -/
def SetCookie (w : ResponseWriter) (cookie : Cookie) : ResponseWriter :=
  if isCookieNameValid cookie.Name then
    { w with SetCookie := w.SetCookie ++ [cookie.header] }
  else w

/-! ## `url.Parse` (package `net/url`) -/

/-- Go `stringContainsCTLByte`: some byte is below 0x20 or is 0x7f. -/
def stringContainsCTLByte (s : List Char) : Bool :=
  s.any (fun c => c.toNat < 0x20 || c.toNat = 0x7f)

/-- Go `strings.Cut(s, sep)` for a one-byte separator: the text before the
first separator and the text after it; all of `s` and nothing when there is
no separator. -/
def cut (s : List Char) (sep : Char) : List Char × List Char :=
  match IndexByteString s sep with
  | some i => (s.take i, s.drop (i + 1))
  | none => (s, [])

/-- Go `strings.HasPrefix`. -/
def HasPrefix (s p : List Char) : Bool := p.isPrefixOf s

/-- The loop of Go `getScheme`, at position `i` with `rest` still to read. -/
def getSchemeLoop (rawURL : List Char) (i : Nat) (rest : List Char) :
    Except String (List Char × List Char) :=
  match rest with
  | [] => Except.ok ([], rawURL)
  | c :: t =>
    if c.isAlpha then getSchemeLoop rawURL (i + 1) t
    else if c.isDigit || c = '+' || c = '-' || c = '.' then
      if i = 0 then Except.ok ([], rawURL) else getSchemeLoop rawURL (i + 1) t
    else if c = ':' then
      if i = 0 then Except.error "missing protocol scheme"
      else Except.ok (rawURL.take i, t)
    else Except.ok ([], rawURL)

/-- Go `getScheme`: the scheme before the first colon and the text after it,
or no scheme and the whole text. -/
def getScheme (rawURL : List Char) : Except String (List Char × List Char) :=
  getSchemeLoop rawURL 0 rawURL

/-- Go `ishex`. -/
def ishex (c : Char) : Bool :=
  c.isDigit || ('a' ≤ c && c ≤ 'f') || ('A' ≤ c && c ≤ 'F')

/-- Whether Go `unescape(s, mode)` reports an `EscapeError`, for a mode other
than the two host modes: some `%` is not followed by two hexadecimal digits. -/
def escapeError (s : List Char) : Bool :=
  match s with
  | [] => false
  | c :: t =>
    if c = '%' then
      match t with
      | a :: b :: t2 => if ishex a && ishex b then escapeError t2 else true
      | _ => true
    else escapeError t

/-- Go `validUserinfo`. -/
def validUserinfo (s : List Char) : Bool :=
  s.all (fun r => r.isAlphanum || "-._:~!$&()*+,;=%@".data.contains r || r.toNat = 39)

/-- Whether Go `parseAuthority(authority)` succeeds with an empty host: the
text after the last `@` (all of it when there is none) is empty, and the user
information before it is valid.  A non-empty host text gives either an error
or a non-empty host. -/
def authorityWithoutHost (authority : List Char) : Bool :=
  match LastIndexByteString authority '@' with
  | none => authority.length = 0
  | some i =>
    let host := authority.drop (i + 1)
    let userinfo := authority.take i
    host.length = 0 && validUserinfo userinfo &&
      (if userinfo.contains ':' then
        !escapeError (cut userinfo ':').1 && !escapeError (cut userinfo ':').2
      else !escapeError userinfo)

/-- Whether Go `url.Parse(rawURL)` returns no error and a URL whose `Scheme`
and `Host` are both empty, which is the test `http.Redirect` makes.  A
non-empty scheme, like a non-empty host text, gives either an error or a
non-empty field, so the test fails in both cases. -/
def parsesWithoutSchemeAndHost (rawURL : String) : Bool :=
  let u := (cut rawURL.data '#').1
  let frag := (cut rawURL.data '#').2
  let fragOk := frag.length = 0 || !escapeError frag
  if stringContainsCTLByte u then false
  else if u = ['*'] then fragOk
  else
    match getScheme u with
    | Except.error _ => false
    | Except.ok (scheme, rest) =>
      if scheme.length ≠ 0 then false
      else
        let rest := (cut rest '?').1
        if not (HasPrefix rest ['/']) && (cut rest '/').1.contains ':' then false
        else if not (HasPrefix rest ['/', '/', '/']) && HasPrefix rest ['/', '/'] then
          let authority :=
            match IndexByteString (rest.drop 2) '/' with
            | some i => (rest.drop 2).take i
            | none => rest.drop 2
          let path :=
            match IndexByteString (rest.drop 2) '/' with
            | some i => (rest.drop 2).drop i
            | none => []
          authorityWithoutHost authority && !escapeError path && fragOk
        else !escapeError rest && fragOk

/-! ## `path.Split`, `path.Clean` (package `path`) -/

/-- The directory Go `path.Split` returns: the path up to and including its
last slash. -/
def pathSplitDir (path : List Char) : List Char :=
  match LastIndexByteString path '/' with
  | some i => path.take (i + 1)
  | none => []

/-- The elements of a path between its slashes. -/
def splitSlash : List Char → List (List Char)
  | [] => [[]]
  | c :: t =>
    if c = '/' then [] :: splitSlash t
    else
      match splitSlash t with
      | comp :: rest => (c :: comp) :: rest
      | [] => [[c]]

/-- The backing up of Go `path.Clean` on a `..` element: from `w`, the write
position goes down while it is above `dotdot` and the byte at it is not a
slash. -/
def backUp (buf : List Char) (dotdot : Nat) : Nat → Nat
  | 0 => 0
  | w + 1 => if w + 1 > dotdot && buf[w + 1]? ≠ some '/' then backUp buf dotdot w else w + 1

/-- One round of the loop of Go `path.Clean`, on the element `comp`, with the
output written so far and the position `dotdot`: an empty element and `.` are
skipped, `..` backs up over the last element (or is kept, in a path that is
not rooted and has nothing to back up over), any other element is appended. -/
def cleanStep (rooted : Bool) (st : List Char × Nat) (comp : List Char) : List Char × Nat :=
  if comp.length = 0 then st
  else if comp = ['.'] then st
  else if comp = ['.', '.'] then
    if st.1.length > st.2 then (st.1.take (backUp st.1 st.2 (st.1.length - 1)), st.2)
    else if !rooted then
      let out := (if st.1.length > 0 then st.1 ++ ['/'] else st.1) ++ ['.', '.']
      (out, out.length)
    else st
  else
    ((if (rooted && st.1.length ≠ 1) || (!rooted && st.1.length ≠ 0) then st.1 ++ ['/']
      else st.1) ++ comp, st.2)

/-- Go `path.Clean`. -/
def Clean (path : List Char) : List Char :=
  if path.length = 0 then ['.']
  else
    let rooted := path.head? = some '/'
    let out := ((splitSlash path).foldl (cleanStep rooted)
      (if rooted then (['/'], 1) else ([], 0))).1
    if out.length = 0 then ['.'] else out

/-! ## `http.Redirect` (package `net/http`) -/

/-- A hexadecimal digit, in lower case. -/
def hexDigit (n : Nat) : Char :=
  if n < 10 then Char.ofNat (48 + n) else Char.ofNat (87 + n)

/-- The bytes of the UTF-8 encoding of a character. -/
def utf8Bytes (c : Char) : List Nat :=
  let v := c.toNat
  if v < 0x80 then [v]
  else if v < 0x800 then [0xC0 + v / 64, 0x80 + v % 64]
  else if v < 0x10000 then [0xE0 + v / 4096, 0x80 + (v / 64) % 64, 0x80 + v % 64]
  else [0xF0 + v / 262144, 0x80 + (v / 4096) % 64, 0x80 + (v / 64) % 64, 0x80 + v % 64]

/-- Go `hexEscapeNonASCII`: every byte from 0x80 up is written as `%` and its
two hexadecimal digits. -/
def hexEscapeNonASCII (s : String) : String :=
  String.mk (s.data.flatMap (fun c =>
    if c.toNat < 0x80 then [c]
    else (utf8Bytes c).flatMap (fun b => ['%', hexDigit (b / 16), hexDigit (b % 16)])))

/-- The target `http.Redirect(w, r, url, code)` redirects to: a `url` that
parses without scheme and host is made absolute against the directory of the
request path when it does not begin with a slash, and its part before the
first `?` is cleaned, a trailing slash being kept; any other `url` is left as
it is. -/
def redirectURL (r : Request) (url : String) : String :=
  if parsesWithoutSchemeAndHost url then
    let oldpath := if r.Path = "" then "/" else r.Path
    let u :=
      if url.data.length = 0 || url.data.head? ≠ some '/' then
        pathSplitDir oldpath.data ++ url.data
      else url.data
    let query :=
      match IndexByteString u '?' with
      | some i => u.drop i
      | none => []
    let u :=
      match IndexByteString u '?' with
      | some i => u.take i
      | none => u
    let trailing := u.getLast? = some '/'
    let u := Clean u
    let u := if trailing && u.getLast? ≠ some '/' then u ++ ['/'] else u
    String.mk (u ++ query)
  else url

/-- The call `http.Redirect(w, r, url, code)`: the `Location` header, then the
status. -/
def Redirect (w : ResponseWriter) (r : Request) (url : String) (code : Nat) :
    ResponseWriter :=
  WriteHeader { w with Location := some (hexEscapeNonASCII (redirectURL r url)) } code

/-! ## The functions of `main.go` -/

/-- Go `getConfigFilePath`. -/
def getConfigFilePath (env : Env) : String :=
  let (configLocation, ok) := env.LookupEnv configLocationEnvVar
  if ok then configLocation else defaultConfigLocation

/-- Go `parseConfigFile`: both errors are logged and otherwise ignored. -/
def parseConfigFile (env : Env) (configFilePath : String) : Go NibbleConfig := do
  let config : NibbleConfig := {}
  let (configData, err) := env.ReadFile configFilePath
  match err with
  | some e =>
    logLine ("Error while reading config file: '" ++ e ++ "'")
    return config
  | none =>
    let (config, err) := Unmarshal configData config
    match err with
    | some e =>
      logLine ("Error parsing config JSON data: '" ++ e ++ "'")
      return config
    | none => return config

/-- Go `getTokenFromUrlQueryParam`. -/
def getTokenFromUrlQueryParam (r : Request) : Go (String × GoError) := do
  let (urlToken, ok) := r.Query.index tokenParamName
  if !ok then
    return ("", some "Token not found in URL query params.")
  else
    if len (← index0 urlToken) < 1 then
      return ("", some "Token not found in URL query params.")
    else
      logLine "User token found in query params"
      return (← index0 urlToken, none)

/-- Go `getTokenFromCookie`. -/
def getTokenFromCookie (r : Request) : Go (String × GoError) := do
  match r.Cookie cookieName with
  | (_, some err) => return ("", some err)
  | (none, none) => ⟨Outcome.panic "invalid memory address or nil pointer dereference", []⟩
  | (some cookieToken, none) =>
    logLine "User token found in auth cookie"
    return (cookieToken.Value, none)

/-- Go `getAuthToken`: the cookie first, then the query parameter. -/
def getAuthToken (r : Request) : Go (String × AuthMethod) := do
  let (cookieToken, err) ← getTokenFromCookie r
  if err ≠ none then
    let (queryParamToken, err) ← getTokenFromUrlQueryParam r
    if err ≠ none then
      logLine "User token not found"
      return ("", AuthMethod.None)
    else
      return (queryParamToken, AuthMethod.QueryParam)
  else
    return (cookieToken, AuthMethod.Cookie)

/-- Go `getRedirectionUrl`. -/
def getRedirectionUrl (r : Request) : Go String := do
  let (redirectUrl, ok) := r.Query.index redirectParamName
  if !ok then
    logLine "Redirection URL not found in query params."
    return defaultRedirectUrl
  else
    if len (← index0 redirectUrl) < 1 then
      logLine "Redirection URL not found in query params."
      return defaultRedirectUrl
    else
      return (← index0 redirectUrl)

/-- Go `buildAuthCookie`; `now` is what `time.Now()` returns. -/
def buildAuthCookie (now : Nat) (host : String) (config : NibbleConfig) : Cookie :=
  let (domain, _, _) := SplitHostPort host
  { Name := cookieName
    Value := config.Token
    MaxAge := cookieMaxAge
    Domain := domain
    Expires := now + Second * cookieMaxAge
    HttpOnly := true
    Secure := true }

/-- Go `authHandler`. -/
def authHandler (env : Env) (w : ResponseWriter) (r : Request) : Go ResponseWriter := do
  let configFilePath := getConfigFilePath env
  logLine ("Parsing config from '" ++ configFilePath ++ "'...")
  let config ← parseConfigFile env configFilePath
  let (token, authMethod) ← getAuthToken r
  let isAuthenticated ← authenticate config token
  if !isAuthenticated then
    logLine "Authentication failed"
    return WriteHeader w StatusForbidden
  else
    logLine "Authentication succeeded"
    let w ←
      if authMethod ≠ AuthMethod.Cookie then do
        let cookie := buildAuthCookie env.now r.Host config
        logLine "Setting authentication cookie..."
        pure (SetCookie w cookie)
      else pure w
    let redirectionUrl ← getRedirectionUrl r
    logLine "Redirecting..."
    return Redirect w r redirectionUrl 302

/-! ## The token extractor as the specification words it -/

/-- The extractor of the specification: the cookie when it is present and
non-empty, else the query parameter when it is present and non-empty, else
nothing. -/
def referenceExtractor (r : Request) : String × AuthMethod :=
  match r.Cookies.find? (fun c => c.Name == cookieName) with
  | some c =>
    if c.Value ≠ "" then (c.Value, AuthMethod.Cookie)
    else
      match r.Query.lookup tokenParamName with
      | some (q :: _) => if q ≠ "" then (q, AuthMethod.QueryParam) else ("", AuthMethod.None)
      | _ => ("", AuthMethod.None)
  | none =>
    match r.Query.lookup tokenParamName with
    | some (q :: _) => if q ≠ "" then (q, AuthMethod.QueryParam) else ("", AuthMethod.None)
    | _ => ("", AuthMethod.None)

/-! ## Concrete configurations and requests -/

/-- An environment whose configuration file is `{"token":"abc123"}`. -/
def scenarioEnv : Env :=
  { files := [(defaultConfigLocation,
      Bytes.text (JSON.object [("token", JSON.string "abc123")]))] }

/-- A request carrying the cookie `nibble_auth_token=abc123`. -/
def scenario1Request : Request :=
  { Host := "example.com", Cookies := [{ Name := cookieName, Value := "abc123" }] }

/-- A request with `?token=abc123&redirect_to=/dashboard`. -/
def scenario2Request : Request :=
  { Host := "example.com",
    Query := [("token", ["abc123"]), ("redirect_to", ["/dashboard"])] }

/-- A request with `?token=wrong`. -/
def scenario3Request : Request :=
  { Host := "example.com", Query := [("token", ["wrong"])] }

/-- A request carrying both the cookie `nibble_auth_token=abc123` and
`?token=other`. -/
def bothChannelsRequest : Request :=
  { Host := "example.com", Cookies := [{ Name := cookieName, Value := "abc123" }],
    Query := [("token", ["other"])] }

/-- A request with the header `Cookie: nibble_auth_token=` and `?token=q`. -/
def emptyCookieQueryRequest : Request :=
  { Host := "example.com", Cookies := [{ Name := cookieName, Value := "" }],
    Query := [("token", ["q"])] }

/-- A request with the header `Cookie: nibble_auth_token=` and no query. -/
def emptyCookieRequest : Request :=
  { Host := "example.com", Cookies := [{ Name := cookieName, Value := "" }] }

/-- A request that carries no cookie and no query parameter. -/
def noTokenRequest : Request := { Host := "example.com" }

/-- A request with `?token=abc`. -/
def abcQueryRequest : Request :=
  { Host := "example.com", Query := [("token", ["abc"])] }

/-- An environment without a configuration file. -/
def missingConfigEnv : Env := {}

/-- An environment whose configuration file is not a JSON text. -/
def invalidConfigEnv : Env :=
  { files := [(defaultConfigLocation, Bytes.invalid)] }

/-- An environment whose configuration file is
`{"token":"abc","working_dir":5}`. -/
def typeErrorConfigEnv : Env :=
  { files := [(defaultConfigLocation,
      Bytes.text (JSON.object
        [("token", JSON.string "abc"), ("working_dir", JSON.number "5")]))] }

/-- An environment whose configuration file is
`{"token":5,"working_dir":"/srv"}`. -/
def tokenTypeErrorConfigEnv : Env :=
  { files := [(defaultConfigLocation,
      Bytes.text (JSON.object
        [("token", JSON.number "5"), ("working_dir", JSON.string "/srv")]))] }

/-- A request whose query map holds the keys `token` and `redirect_to` with no
value under them, which no map built by `URL.Query()` does. -/
def noValueQueryRequest : Request :=
  { Host := "example.com", Query := [("token", []), ("redirect_to", [])] }

/-- A request with `?token=abc123&redirect_to=dashboard`, sent to `/auth`. -/
def relativeRedirectRequest : Request :=
  { Host := "example.com",
    Query := [("token", ["abc123"]), ("redirect_to", ["dashboard"])] }

/-- An environment whose configuration file is `{"token":"a;b"}`. -/
def semicolonTokenEnv : Env :=
  { files := [(defaultConfigLocation,
      Bytes.text (JSON.object [("token", JSON.string "a;b")]))] }

/-- A request with `?token=a%3Bb`, whose `token` parameter has the value
`a;b`. -/
def semicolonTokenRequest : Request :=
  { Host := "example.com", Query := [("token", ["a;b"])] }

/-- An environment whose configuration file is `{"token":"","working_dir":5}`. -/
def emptyTokenTypeErrorConfigEnv : Env :=
  { files := [(defaultConfigLocation,
      Bytes.text (JSON.object
        [("token", JSON.string ""), ("working_dir", JSON.number "5")]))] }

/-! ## Running `Go` computations -/

@[simp] theorem Go.outcome_pure {α : Type} (a : α) :
    (pure a : Go α).outcome = Outcome.ret a := rfl

@[simp] theorem Go.trace_pure {α : Type} (a : α) : (pure a : Go α).trace = [] := rfl

theorem Go.outcome_bind {α β : Type} (m : Go α) (f : α → Go β) :
    (m >>= f).outcome =
      match m.outcome with
      | Outcome.ret a => (f a).outcome
      | Outcome.panic msg => Outcome.panic msg := by
  show (Go.bind m f).outcome = _
  unfold Go.bind
  cases m.outcome <;> rfl

theorem Go.outcome_bind_ret {α β : Type} {m : Go α} {a : α} (f : α → Go β)
    (h : m.outcome = Outcome.ret a) : (m >>= f).outcome = (f a).outcome := by
  rw [Go.outcome_bind, h]

theorem Go.outcome_bind_panic {α β : Type} {m : Go α} {msg : String} (f : α → Go β)
    (h : m.outcome = Outcome.panic msg) : (m >>= f).outcome = Outcome.panic msg := by
  rw [Go.outcome_bind, h]

@[simp] theorem logLine_outcome (line : String) :
    (logLine line).outcome = Outcome.ret () := rfl

@[simp] theorem logLine_bind_outcome {β : Type} (line : String) (f : Unit → Go β) :
    (logLine line >>= f).outcome = (f ()).outcome := rfl

@[simp] theorem timeSleep_bind_outcome {β : Type} (ns : Nat) (f : Unit → Go β) :
    (timeSleep ns >>= f).outcome = (f ()).outcome := rfl

/-- A string has no bytes only when it is the empty string. -/
theorem len_lt_one_iff (s : String) : len s < 1 ↔ s = "" := by
  constructor
  · intro h
    rcases s with ⟨cs⟩
    cases cs with
    | nil => rfl
    | cons c cs =>
      exfalso
      have hc := Char.utf8Size_pos c
      simp [len, String.utf8ByteSize, String.utf8ByteSize.go] at h
      omega
  · rintro rfl
    decide

/-! ## What each function returns -/

theorem authenticate_outcome (config : NibbleConfig) (token : String) :
    (authenticate config token).outcome = Outcome.ret (config.Token == token) := rfl

/-- The configuration `parseConfigFile` returns: the zero value when the read
fails, else whatever `json.Unmarshal` stored, error or not. -/
theorem parseConfigFile_outcome (env : Env) (path : String) :
    (parseConfigFile env path).outcome =
      Outcome.ret (match env.ReadFile path with
        | (_, some _) => {}
        | (data, none) => (Unmarshal data {}).1) := by
  unfold parseConfigFile
  rcases hrd : env.ReadFile path with ⟨data, err⟩
  cases err with
  | some e => rfl
  | none =>
    rcases hum : Unmarshal data {} with ⟨config, err2⟩
    cases err2 <;> simp [hum]

theorem getTokenFromCookie_outcome (r : Request) :
    (getTokenFromCookie r).outcome =
      Outcome.ret (match r.Cookies.find? (fun c => c.Name == cookieName) with
        | some c => (c.Value, none)
        | none => ("", some "http: named cookie not present")) := by
  unfold getTokenFromCookie Request.Cookie
  cases r.Cookies.find? (fun c => c.Name == cookieName) <;> rfl

theorem getTokenFromUrlQueryParam_outcome (r : Request) :
    (getTokenFromUrlQueryParam r).outcome =
      match r.Query.lookup tokenParamName with
      | none => Outcome.ret ("", some "Token not found in URL query params.")
      | some [] => Outcome.panic "runtime error: index out of range [0] with length 0"
      | some (q :: _) =>
        if q = "" then Outcome.ret ("", some "Token not found in URL query params.")
        else Outcome.ret (q, none) := by
  unfold getTokenFromUrlQueryParam Values.index
  cases hq : r.Query.lookup tokenParamName with
  | none => rfl
  | some vs =>
    cases vs with
    | nil => rfl
    | cons q rest =>
      by_cases hlen : len q < 1
      · have hq0 := (len_lt_one_iff q).1 hlen
        subst hq0
        rfl
      · have hq0 : q ≠ "" := fun h => hlen ((len_lt_one_iff q).2 h)
        have hlen0 : ¬ len q = 0 := by omega
        simp [Go.outcome_bind, index0, hlen0, hq0]

theorem getRedirectionUrl_outcome (r : Request) :
    (getRedirectionUrl r).outcome =
      match r.Query.lookup redirectParamName with
      | none => Outcome.ret defaultRedirectUrl
      | some [] => Outcome.panic "runtime error: index out of range [0] with length 0"
      | some (u :: _) =>
        if u = "" then Outcome.ret defaultRedirectUrl else Outcome.ret u := by
  unfold getRedirectionUrl Values.index
  cases hq : r.Query.lookup redirectParamName with
  | none => rfl
  | some vs =>
    cases vs with
    | nil => rfl
    | cons u rest =>
      by_cases hlen : len u < 1
      · have hu0 := (len_lt_one_iff u).1 hlen
        subst hu0
        rfl
      · have hu0 : u ≠ "" := fun h => hlen ((len_lt_one_iff u).2 h)
        have hlen0 : ¬ len u = 0 := by omega
        simp [Go.outcome_bind, index0, hlen0, hu0]

theorem getAuthToken_outcome (r : Request) :
    (getAuthToken r).outcome =
      match r.Cookies.find? (fun c => c.Name == cookieName) with
      | some c => Outcome.ret (c.Value, AuthMethod.Cookie)
      | none =>
        match r.Query.lookup tokenParamName with
        | none => Outcome.ret ("", AuthMethod.None)
        | some [] => Outcome.panic "runtime error: index out of range [0] with length 0"
        | some (q :: _) =>
          if q = "" then Outcome.ret ("", AuthMethod.None)
          else Outcome.ret (q, AuthMethod.QueryParam) := by
  unfold getAuthToken
  rw [Go.outcome_bind, getTokenFromCookie_outcome]
  cases r.Cookies.find? (fun c => c.Name == cookieName) with
  | some c => rfl
  | none =>
    simp only [ne_eq, reduceCtorEq, not_false_eq_true, if_true]
    rw [Go.outcome_bind, getTokenFromUrlQueryParam_outcome]
    cases r.Query.lookup tokenParamName with
    | none => rfl
    | some vs =>
      cases vs with
      | nil => rfl
      | cons q rest =>
        by_cases hq0 : q = ""
        · simp [hq0]
        · simp [hq0]

/-- In a well-formed query map a key that is present has a first value. -/
theorem lookup_ne_nil_of_QueryWF {r : Request} (hwf : r.QueryWF) (key : String) :
    r.Query.lookup key ≠ some [] := by
  intro h
  unfold Request.QueryWF at hwf
  generalize r.Query = m at hwf h
  induction m with
  | nil => simp [List.lookup] at h
  | cons kv m ih =>
    rcases kv with ⟨k, v⟩
    by_cases hk : key = k
    · subst hk
      simp [List.lookup] at h
      exact hwf (key, v) (List.mem_cons_self _ _) h
    · have hk2 : (key == k) = false := by simpa using hk
      simp only [List.lookup, hk2] at h
      exact ih (fun kv hkv => hwf kv (List.mem_cons_of_mem _ hkv)) h

theorem parseConfigFile_total (env : Env) (path : String) :
    ∃ config, (parseConfigFile env path).outcome = Outcome.ret config :=
  ⟨_, parseConfigFile_outcome env path⟩

theorem getAuthToken_total {r : Request} (hwf : r.QueryWF) :
    ∃ token method, (getAuthToken r).outcome = Outcome.ret (token, method) := by
  rw [getAuthToken_outcome]
  cases r.Cookies.find? (fun c => c.Name == cookieName) with
  | some c => exact ⟨_, _, rfl⟩
  | none =>
    have hne := lookup_ne_nil_of_QueryWF hwf tokenParamName
    cases hq : r.Query.lookup tokenParamName with
    | none => exact ⟨_, _, rfl⟩
    | some vs =>
      cases vs with
      | nil => exact absurd hq hne
      | cons q rest =>
        by_cases hq0 : q = ""
        · exact ⟨"", AuthMethod.None, by simp [hq0]⟩
        · exact ⟨q, AuthMethod.QueryParam, by simp [hq0]⟩

theorem getRedirectionUrl_total {r : Request} (hwf : r.QueryWF) :
    ∃ url, (getRedirectionUrl r).outcome = Outcome.ret url := by
  rw [getRedirectionUrl_outcome]
  have hne := lookup_ne_nil_of_QueryWF hwf redirectParamName
  cases hq : r.Query.lookup redirectParamName with
  | none => exact ⟨_, rfl⟩
  | some vs =>
    cases vs with
    | nil => exact absurd hq hne
    | cons u rest =>
      by_cases hu0 : u = ""
      · exact ⟨defaultRedirectUrl, by simp [hu0]⟩
      · exact ⟨u, by simp [hu0]⟩

/-- The response of `authHandler`, given what its three reads returned. -/
theorem authHandler_outcome (env : Env) (w : ResponseWriter) (r : Request)
    {config : NibbleConfig} {token : String} {method : AuthMethod}
    (hcfg : (parseConfigFile env (getConfigFilePath env)).outcome = Outcome.ret config)
    (htok : (getAuthToken r).outcome = Outcome.ret (token, method)) :
    (authHandler env w r).outcome =
      if config.Token = token then
        match (getRedirectionUrl r).outcome with
        | Outcome.ret url =>
          Outcome.ret (Redirect
            (if method ≠ AuthMethod.Cookie then
              SetCookie w (buildAuthCookie env.now r.Host config) else w) r url 302)
        | Outcome.panic msg => Outcome.panic msg
      else Outcome.ret (WriteHeader w StatusForbidden) := by
  unfold authHandler
  simp only [logLine_bind_outcome]
  rw [Go.outcome_bind_ret _ hcfg, Go.outcome_bind_ret _ htok]
  simp only []
  rw [Go.outcome_bind_ret _ (authenticate_outcome config token)]
  by_cases hEq : config.Token = token
  · simp only [hEq, beq_self_eq_true, Bool.not_true, if_true]
    by_cases hm : method = AuthMethod.Cookie
    · subst hm
      rcases hr : (getRedirectionUrl r).outcome with url | msg <;>
        simp [Go.outcome_bind, hr]
    · rcases hr : (getRedirectionUrl r).outcome with url | msg <;>
        simp [Go.outcome_bind, hr, hm]
  · have hb : (config.Token == token) = false := by simpa using hEq
    simp [hb, hEq]

/-! ## What `net/http` writes -/

theorem isCookieNameValid_cookieName : isCookieNameValid cookieName = true := by
  decide

/-- The header line of the cookie `buildAuthCookie` builds. -/
theorem buildAuthCookie_header (now : Nat) (host : String) (config : NibbleConfig) :
    (buildAuthCookie now host config).header =
      { Name := "nibble_auth_token"
        Value := sanitizeCookieValue config.Token
        MaxAge := 86400
        HttpOnly := true
        Secure := true } := rfl

/-- The name of the cookie is valid, so `http.SetCookie` writes its line. -/
theorem SetCookie_buildAuthCookie (w : ResponseWriter) (now : Nat) (host : String)
    (config : NibbleConfig) :
    SetCookie w (buildAuthCookie now host config) =
      { w with SetCookie := w.SetCookie ++ [(buildAuthCookie now host config).header] } := by
  have h : isCookieNameValid (buildAuthCookie now host config).Name = true :=
    isCookieNameValid_cookieName
  unfold SetCookie
  rw [if_pos h]

/-- A value made of bytes valid in a cookie value, with no space and no comma,
is written as it is. -/
theorem sanitizeCookieValue_of_valid (v : String)
    (hv : ∀ c ∈ v.data, validCookieValueByte c = true ∧ c ≠ ' ' ∧ c ≠ ',') :
    sanitizeCookieValue v = v := by
  have hfilter : v.data.filter validCookieValueByte = v.data :=
    List.filter_eq_self.2 (fun c hc => (hv c hc).1)
  have hany : v.data.any (fun c => c = ' ' || c = ',') = false := by
    rw [List.any_eq_false]
    intro c hc
    have := hv c hc
    simp [this.2.1, this.2.2]
  unfold sanitizeCookieValue
  simp only [hfilter, hany]
  split <;> rfl

/-- A text of ASCII characters has nothing to escape. -/
theorem hexEscapeNonASCII_of_ascii (s : String) (hs : ∀ c ∈ s.data, c.toNat < 0x80) :
    hexEscapeNonASCII s = s := by
  unfold hexEscapeNonASCII
  have h : s.data.flatMap (fun c =>
      if c.toNat < 0x80 then [c]
      else (utf8Bytes c).flatMap (fun b => ['%', hexDigit (b / 16), hexDigit (b % 16)])) =
      s.data := by
    generalize s.data = l at hs
    induction l with
    | nil => rfl
    | cons c cs ih =>
      have hc : c.toNat < 0x80 := hs c (List.mem_cons_self _ _)
      simp only [List.flatMap_cons, if_pos hc, List.singleton_append]
      rw [ih (fun d hd => hs d (List.mem_cons_of_mem _ hd))]
  rw [h]

/-- The response of `authHandler` on a fresh `ResponseWriter`, given what its
three reads returned. -/
theorem authHandler_response (env : Env) (r : Request)
    {config : NibbleConfig} {token : String} {method : AuthMethod} {target : String}
    (hcfg : (parseConfigFile env (getConfigFilePath env)).outcome = Outcome.ret config)
    (htok : (getAuthToken r).outcome = Outcome.ret (token, method))
    (hurl : (getRedirectionUrl r).outcome = Outcome.ret target) :
    (authHandler env {} r).outcome =
      Outcome.ret
        (if config.Token = token then
          { status := some 302
            Location := some (hexEscapeNonASCII (redirectURL r target))
            SetCookie :=
              if method ≠ AuthMethod.Cookie then
                [(buildAuthCookie env.now r.Host config).header]
              else [] }
        else { status := some 403, SetCookie := [], Location := none }) := by
  rw [authHandler_outcome env {} r hcfg htok, hurl]
  by_cases heq : config.Token = token
  · by_cases hm : method = AuthMethod.Cookie
    · simp [heq, hm, Redirect, WriteHeader]
    · simp [heq, hm, Redirect, WriteHeader, SetCookie_buildAuthCookie]
  · simp only [if_neg heq]
    rfl

/-- The response of `authHandler` on a fresh `ResponseWriter` when the
extracted token is not the configured one. -/
theorem authHandler_response_denied (env : Env) (r : Request)
    {config : NibbleConfig} {token : String} {method : AuthMethod}
    (hcfg : (parseConfigFile env (getConfigFilePath env)).outcome = Outcome.ret config)
    (htok : (getAuthToken r).outcome = Outcome.ret (token, method))
    (hne : config.Token ≠ token) :
    (authHandler env {} r).outcome =
      Outcome.ret { status := some 403, SetCookie := [], Location := none } := by
  rw [authHandler_outcome env {} r hcfg htok, if_neg hne]
  rfl

/-- Whenever the cookie, if there is one, has a non-empty value, `getAuthToken`
returns what the extractor of the specification returns. -/
theorem getAuthToken_eq_referenceExtractor {r : Request} (hwf : r.QueryWF)
    (hc : ∀ c, r.Cookies.find? (fun c => c.Name == cookieName) = some c → c.Value ≠ "") :
    (getAuthToken r).outcome = Outcome.ret (referenceExtractor r) := by
  rw [getAuthToken_outcome]
  unfold referenceExtractor
  cases hf : r.Cookies.find? (fun c => c.Name == cookieName) with
  | some c =>
    have hv : c.Value ≠ "" := hc c hf
    simp only [if_pos hv]
  | none =>
    have hne := lookup_ne_nil_of_QueryWF hwf tokenParamName
    cases hq : r.Query.lookup tokenParamName with
    | none => rfl
    | some vs =>
      cases vs with
      | nil => exact absurd hq hne
      | cons q rest =>
        by_cases hq0 : q = ""
        · simp [hq0]
        · simp [hq0]

theorem IndexByteString_of_not_mem {s : List Char} {c : Char} (h : c ∉ s) :
    IndexByteString s c = none := by
  induction s with
  | nil => rfl
  | cons x xs ih =>
    have hx : x ≠ c := fun e => h (e ▸ List.mem_cons_self _ _)
    have hxs : c ∉ xs := fun e => h (List.mem_cons_of_mem _ e)
    simp [IndexByteString, hx, ih hxs]

theorem LastIndexByteString_of_not_mem {s : List Char} {c : Char} (h : c ∉ s) :
    LastIndexByteString s c = none := by
  induction s with
  | nil => rfl
  | cons x xs ih =>
    have hx : x ≠ c := fun e => h (e ▸ List.mem_cons_self _ _)
    have hxs : c ∉ xs := fun e => h (List.mem_cons_of_mem _ e)
    simp [LastIndexByteString, hx, ih hxs]

theorem LastIndexByteString_append_cons (h p : List Char) (c : Char) (hp : c ∉ p) :
    LastIndexByteString (h ++ c :: p) c = some h.length := by
  induction h with
  | nil => simp [LastIndexByteString, LastIndexByteString_of_not_mem hp]
  | cons x xs ih => simp [LastIndexByteString, ih]

/-- On `host:port` with no colon and no bracket in either part,
`net.SplitHostPort` returns the two parts and no error. -/
theorem SplitHostPort_of_host_port (h p : List Char)
    (hh : ∀ c ∈ h, c ≠ ':' ∧ c ≠ '[' ∧ c ≠ ']')
    (hp : ∀ c ∈ p, c ≠ ':' ∧ c ≠ '[' ∧ c ≠ ']') :
    SplitHostPort (String.mk (h ++ ':' :: p)) = (String.mk h, String.mk p, none) := by
  have hcolon_p : ':' ∉ p := fun e => (hp _ e).1 rfl
  have hcolon_h : ':' ∉ h := fun e => (hh _ e).1 rfl
  have hopen : '[' ∉ h ++ ':' :: p := by
    intro e
    rcases List.mem_append.1 e with e | e
    · exact (hh _ e).2.1 rfl
    · rcases List.mem_cons.1 e with e | e
      · exact absurd e (by decide)
      · exact (hp _ e).2.1 rfl
  have hclose : ']' ∉ h ++ ':' :: p := by
    intro e
    rcases List.mem_append.1 e with e | e
    · exact (hh _ e).2.2 rfl
    · rcases List.mem_cons.1 e with e | e
      · exact absurd e (by decide)
      · exact (hp _ e).2.2 rfl
  have hhead : (h ++ ':' :: p).head? ≠ some '[' := by
    cases h with
    | nil => simp
    | cons x xs =>
      have := (hh x (List.mem_cons_self _ _)).2.1
      simpa using this
  unfold SplitHostPort
  simp only [LastIndexByteString_append_cons h p ':' hcolon_p, if_neg hhead,
    List.take_left, IndexByteString_of_not_mem hcolon_h, List.drop_zero,
    IndexByteString_of_not_mem hopen, IndexByteString_of_not_mem hclose]
  simp

/-- When the host has the form `host:port`, the `Domain` of the cookie is the
host part. -/
theorem buildAuthCookie_domain_of_host_port (now : Nat) (config : NibbleConfig)
    (h p : List Char)
    (hh : ∀ c ∈ h, c ≠ ':' ∧ c ≠ '[' ∧ c ≠ ']')
    (hp : ∀ c ∈ p, c ≠ ':' ∧ c ≠ '[' ∧ c ≠ ']') :
    (buildAuthCookie now (String.mk (h ++ ':' :: p)) config).Domain = String.mk h := by
  show (SplitHostPort (String.mk (h ++ ':' :: p))).1 = String.mk h
  rw [SplitHostPort_of_host_port h p hh hp]

/-- When the host has no colon, `net.SplitHostPort` fails and the `Domain` of
the cookie is empty. -/
theorem buildAuthCookie_domain_of_no_colon (now : Nat) (config : NibbleConfig)
    (host : String) (hc : ':' ∉ host.data) :
    (buildAuthCookie now host config).Domain = "" := by
  show (SplitHostPort host).1 = ""
  unfold SplitHostPort
  simp [LastIndexByteString_of_not_mem hc, addrErr]

/-! ## The claims -/

/-- C1: for every configuration and every presented token, `authenticate`
returns, and what it returns is true exactly when the token equals the
configured secret. -/
theorem authenticate_true_iff (config : NibbleConfig) (T : String) :
    ∃ b, (authenticate config T).outcome = Outcome.ret b ∧ (b = true ↔ T = config.Token) := by
  refine ⟨config.Token == T, authenticate_outcome config T, ?_⟩
  rw [beq_iff_eq]
  exact ⟨fun h => h.symm, fun h => h.symm⟩

/-- C2, as stated, fails: on the request `?token=abc123&redirect_to=dashboard`
against the token `abc123`, the resolved redirect target is `dashboard`, and
the answer is 302 with the `Location` header `/dashboard`, which is not the
resolved target. -/
theorem authHandler_relative_target_rewritten :
    (getAuthToken relativeRedirectRequest).outcome =
      Outcome.ret ("abc123", AuthMethod.QueryParam) ∧
    (authenticate { Token := "abc123" } "abc123").outcome = Outcome.ret true ∧
    (getRedirectionUrl relativeRedirectRequest).outcome = Outcome.ret "dashboard" ∧
    ∃ w, (authHandler scenarioEnv {} relativeRedirectRequest).outcome = Outcome.ret w ∧
      w.status = some 302 ∧ w.Location = some "/dashboard" ∧
      w.Location ≠ some "dashboard" :=
  ⟨by decide, by decide, by decide,
    { status := some 302
      Location := some "/dashboard"
      SetCookie := [(buildAuthCookie 0 "example.com" { Token := "abc123" }).header] },
    by decide, by decide, by decide, by decide⟩

/-- C2, amended: for every environment and every request with a well-formed
query map, the three reads of `authHandler` return, and the response is 403
with no `Set-Cookie` and no `Location` when `authenticate` on the extracted
token is false, and 302 when it is true, with the `Location` header
`http.Redirect` writes for the resolved redirect target: a target that parses
without scheme and host is made absolute against the request path and
cleaned, and non-ASCII bytes are escaped.  That header is the target itself
when the target is the default `/`, and when the target is made of ASCII
characters and does not parse without scheme and host. -/
theorem authHandler_denied_or_redirect (env : Env) (r : Request) (hwf : r.QueryWF) :
    ∃ config token method target,
      (parseConfigFile env (getConfigFilePath env)).outcome = Outcome.ret config ∧
      (getAuthToken r).outcome = Outcome.ret (token, method) ∧
      (getRedirectionUrl r).outcome = Outcome.ret target ∧
      ((authenticate config token).outcome = Outcome.ret false →
        (authHandler env {} r).outcome =
          Outcome.ret { status := some 403, SetCookie := [], Location := none }) ∧
      ((authenticate config token).outcome = Outcome.ret true →
        ∃ w, (authHandler env {} r).outcome = Outcome.ret w ∧
          w.status = some 302 ∧
          w.Location = some (hexEscapeNonASCII (redirectURL r target)) ∧
          (target = "/" → w.Location = some target) ∧
          (parsesWithoutSchemeAndHost target = false →
            (∀ c ∈ target.data, c.toNat < 0x80) → w.Location = some target)) := by
  obtain ⟨config, hcfg⟩ := parseConfigFile_total env (getConfigFilePath env)
  obtain ⟨token, method, htok⟩ := getAuthToken_total hwf
  obtain ⟨target, hurl⟩ := getRedirectionUrl_total hwf
  refine ⟨config, token, method, target, hcfg, htok, hurl, ?_, ?_⟩
  · intro hauth
    rw [authenticate_outcome] at hauth
    have hne : config.Token ≠ token := by
      intro h
      simp [h] at hauth
    exact authHandler_response_denied env r hcfg htok hne
  · intro hauth
    rw [authenticate_outcome] at hauth
    have heq : config.Token = token := by simpa using hauth
    rw [authHandler_response env r hcfg htok hurl, if_pos heq]
    refine ⟨_, rfl, rfl, rfl, ?_, ?_⟩
    · intro ht
      subst ht
      show some (hexEscapeNonASCII (redirectURL r "/")) = some "/"
      have hp : parsesWithoutSchemeAndHost "/" = true := by decide
      have h0 : (decide ("/".data.length = 0) || decide ("/".data.head? ≠ some '/')) =
          false := by decide
      have hu : redirectURL r "/" = "/" := by
        unfold redirectURL
        rw [if_pos hp]
        simp only [h0, Bool.false_eq_true, if_false]
        decide
      rw [hu]
      decide
    · intro hp hascii
      show some (hexEscapeNonASCII (redirectURL r target)) = some target
      have hu : redirectURL r target = target := by
        unfold redirectURL
        rw [hp]
        rfl
      rw [hu, hexEscapeNonASCII_of_ascii target hascii]

/-- C2, amended, at the request `?token=wrong` against the token `abc123`: the
response is 403 with no `Set-Cookie` and no `Location`; and at the request
`?token=abc123&redirect_to=/dashboard` the `Location` is `/dashboard`. -/
theorem authHandler_denied_or_redirect_witness :
    scenario3Request.QueryWF ∧
    (authHandler scenarioEnv {} scenario3Request).outcome =
      Outcome.ret { status := some 403, SetCookie := [], Location := none } ∧
    hexEscapeNonASCII (redirectURL scenario2Request "/dashboard") = "/dashboard" ∧
    ∃ config token method target,
      (parseConfigFile scenarioEnv (getConfigFilePath scenarioEnv)).outcome =
        Outcome.ret config ∧
      (getAuthToken scenario3Request).outcome = Outcome.ret (token, method) ∧
      (getRedirectionUrl scenario3Request).outcome = Outcome.ret target ∧
      ((authenticate config token).outcome = Outcome.ret false →
        (authHandler scenarioEnv {} scenario3Request).outcome =
          Outcome.ret { status := some 403, SetCookie := [], Location := none }) ∧
      ((authenticate config token).outcome = Outcome.ret true →
        ∃ w, (authHandler scenarioEnv {} scenario3Request).outcome = Outcome.ret w ∧
          w.status = some 302 ∧
          w.Location = some (hexEscapeNonASCII (redirectURL scenario3Request target)) ∧
          (target = "/" → w.Location = some target) ∧
          (parsesWithoutSchemeAndHost target = false →
            (∀ c ∈ target.data, c.toNat < 0x80) → w.Location = some target)) :=
  ⟨by decide, by decide, by decide,
    authHandler_denied_or_redirect scenarioEnv scenario3Request (by decide)⟩

/-- C3: a request that carries the cookie `nibble_auth_token` with a non-empty
value and a `token` query parameter with a non-empty value yields the value of
the cookie and the channel `Cookie`. -/
theorem getAuthToken_cookie_precedence (r : Request) (c : Cookie) (q : String)
    (rest : List String)
    (hc : r.Cookie cookieName = (some c, none)) (hcne : c.Value ≠ "")
    (_hq : r.Query.index tokenParamName = (q :: rest, true)) (_hqne : q ≠ "") :
    (getAuthToken r).outcome = Outcome.ret (c.Value, AuthMethod.Cookie) ∧
    ∀ method, (getAuthToken r).outcome = Outcome.ret (q, method) →
      q = c.Value ∧ method = AuthMethod.Cookie := by
  have hout : (getAuthToken r).outcome = Outcome.ret (c.Value, AuthMethod.Cookie) := by
    rw [getAuthToken_outcome]
    unfold Request.Cookie at hc
    cases hf : r.Cookies.find? (fun c => c.Name == cookieName) with
    | none => simp [hf] at hc
    | some c2 =>
      simp [hf] at hc
      subst hc
      rfl
  refine ⟨hout, ?_⟩
  intro method hm
  rw [hout] at hm
  simp at hm
  exact ⟨hm.1.symm, hm.2.symm⟩

/-- C3, at a request with the cookie `nibble_auth_token=abc123` and
`?token=other`. -/
theorem getAuthToken_cookie_precedence_witness :
    bothChannelsRequest.Cookie cookieName =
      (some { Name := cookieName, Value := "abc123" }, none) ∧
    bothChannelsRequest.Query.index tokenParamName = (["other"], true) ∧
    (getAuthToken bothChannelsRequest).outcome =
      Outcome.ret ("abc123", AuthMethod.Cookie) :=
  ⟨by decide, by decide,
    (getAuthToken_cookie_precedence bothChannelsRequest
      { Name := cookieName, Value := "abc123" } "other" []
      (by decide) (by decide) (by decide) (by decide)).1⟩

/-- C4: `getAuthToken` departs from the extractor of the specification on a
cookie with an empty value: with `?token=q` the code returns the empty token
on channel `Cookie` where the specification asks for `q` on `QueryParam`, and
without a query it returns channel `Cookie` where the specification asks for
`None`. -/
theorem getAuthToken_empty_cookie_not_skipped :
    (getAuthToken emptyCookieQueryRequest).outcome = Outcome.ret ("", AuthMethod.Cookie) ∧
    referenceExtractor emptyCookieQueryRequest = ("q", AuthMethod.QueryParam) ∧
    (getAuthToken emptyCookieRequest).outcome = Outcome.ret ("", AuthMethod.Cookie) ∧
    referenceExtractor emptyCookieRequest = ("", AuthMethod.None) := by
  decide

/-- C5: for every environment and every request with a well-formed query map,
the response of `authHandler` carries a `Set-Cookie` header exactly when
`authenticate` returned true and the channel `getAuthToken` returned is not
`Cookie`; the header is then the line `http.SetCookie` writes for the cookie
`buildAuthCookie` built. -/
theorem authHandler_setCookie_iff (env : Env) (r : Request) (hwf : r.QueryWF) :
    ∃ config token method w,
      (parseConfigFile env (getConfigFilePath env)).outcome = Outcome.ret config ∧
      (getAuthToken r).outcome = Outcome.ret (token, method) ∧
      (authHandler env {} r).outcome = Outcome.ret w ∧
      (w.SetCookie ≠ [] ↔
        ((authenticate config token).outcome = Outcome.ret true ∧
          method ≠ AuthMethod.Cookie)) ∧
      (w.SetCookie ≠ [] →
        w.SetCookie = [(buildAuthCookie env.now r.Host config).header]) := by
  obtain ⟨config, hcfg⟩ := parseConfigFile_total env (getConfigFilePath env)
  obtain ⟨token, method, htok⟩ := getAuthToken_total hwf
  obtain ⟨target, hurl⟩ := getRedirectionUrl_total hwf
  have hout := authHandler_response env r hcfg htok hurl
  by_cases heq : config.Token = token
  · rw [if_pos heq] at hout
    refine ⟨config, token, method, _, hcfg, htok, hout, ?_, ?_⟩
    · rw [authenticate_outcome]
      by_cases hm : method = AuthMethod.Cookie <;> simp [hm, heq]
    · by_cases hm : method = AuthMethod.Cookie <;> simp [hm]
  · rw [if_neg heq] at hout
    refine ⟨config, token, method, _, hcfg, htok, hout, ?_, ?_⟩
    · rw [authenticate_outcome]
      simp [heq]
    · simp

/-- C5, at the token `abc123`: the request `?token=abc123&redirect_to=/dashboard`
is answered 302 to `/dashboard` with a `Set-Cookie` of value `abc123`, and the
request carrying the cookie `nibble_auth_token=abc123` is answered 302 with no
`Set-Cookie`. -/
theorem authHandler_setCookie_iff_witness :
    scenario2Request.QueryWF ∧
    (authHandler scenarioEnv {} scenario2Request).outcome =
      Outcome.ret
        { status := some 302
          Location := some "/dashboard"
          SetCookie := [
            { Name := "nibble_auth_token"
              Value := "abc123"
              MaxAge := 86400
              HttpOnly := true
              Secure := true }] } ∧
    (authHandler scenarioEnv {} scenario1Request).outcome =
      Outcome.ret { status := some 302, Location := some "/", SetCookie := [] } ∧
    ∃ config token method w,
      (parseConfigFile scenarioEnv (getConfigFilePath scenarioEnv)).outcome =
        Outcome.ret config ∧
      (getAuthToken scenario2Request).outcome = Outcome.ret (token, method) ∧
      (authHandler scenarioEnv {} scenario2Request).outcome = Outcome.ret w ∧
      (w.SetCookie ≠ [] ↔
        ((authenticate config token).outcome = Outcome.ret true ∧
          method ≠ AuthMethod.Cookie)) ∧
      (w.SetCookie ≠ [] →
        w.SetCookie =
          [(buildAuthCookie scenarioEnv.now scenario2Request.Host config).header]) :=
  ⟨by decide, by decide, by decide,
    authHandler_setCookie_iff scenarioEnv scenario2Request (by decide)⟩

/-- C6: `getRedirectionUrl` returns `/` when the query map has no
`redirect_to` key and when the first value under that key is the empty
string, and returns the first value as it is when it is not empty. -/
theorem getRedirectionUrl_default_or_verbatim (r : Request) :
    ((r.Query.index redirectParamName).2 = false →
      (getRedirectionUrl r).outcome = Outcome.ret "/") ∧
    (∀ rest, r.Query.index redirectParamName = ("" :: rest, true) →
      (getRedirectionUrl r).outcome = Outcome.ret "/") ∧
    (∀ u rest, r.Query.index redirectParamName = (u :: rest, true) → u ≠ "" →
      (getRedirectionUrl r).outcome = Outcome.ret u) := by
  rw [getRedirectionUrl_outcome]
  unfold Values.index
  cases hq : r.Query.lookup redirectParamName with
  | none => simp [defaultRedirectUrl]
  | some vs =>
    cases vs with
    | nil => simp
    | cons v rest =>
      refine ⟨by simp, ?_, ?_⟩
      · intro rest2 h
        simp only [Prod.mk.injEq, List.cons.injEq, and_true] at h
        simp [h.1, defaultRedirectUrl]
      · intro u rest2 h hu
        simp only [Prod.mk.injEq, List.cons.injEq, and_true] at h
        obtain ⟨hv, -⟩ := h
        subst hv
        simp [hu]

/-- C6, at `?token=abc123&redirect_to=/dashboard`: the target is `/dashboard`. -/
theorem getRedirectionUrl_default_or_verbatim_witness :
    scenario2Request.Query.index redirectParamName = (["/dashboard"], true) ∧
    (getRedirectionUrl scenario2Request).outcome = Outcome.ret "/dashboard" :=
  ⟨by decide,
    (getRedirectionUrl_default_or_verbatim scenario2Request).2.2 "/dashboard" []
      (by decide) (by decide)⟩

/-! ### Configuration failures -/

/-- A failed read leaves the zero configuration. -/
theorem parseConfigFile_of_read_error {env : Env} {path : String}
    (h : (env.ReadFile path).2 ≠ none) :
    (parseConfigFile env path).outcome = Outcome.ret {} := by
  rw [parseConfigFile_outcome]
  rcases hrd : env.ReadFile path with ⟨data, err⟩
  rw [hrd] at h
  cases err with
  | none => exact absurd rfl h
  | some e => rfl

/-- Bytes that are not the JSON text of an object leave the configuration
empty. -/
theorem parseConfigFile_of_not_object {env : Env} {path : String}
    (h : (env.ReadFile path).1 = Bytes.invalid ∨
      ∃ v, (env.ReadFile path).1 = Bytes.text v ∧ ∀ members, v ≠ JSON.object members) :
    (parseConfigFile env path).outcome = Outcome.ret {} := by
  rw [parseConfigFile_outcome]
  rcases hrd : env.ReadFile path with ⟨data, err⟩
  rw [hrd] at h
  cases err with
  | some e => rfl
  | none =>
    rcases h with h | ⟨v, h, hv⟩
    · simp only at h
      subst h
      rfl
    · simp only at h
      subst h
      cases v with
      | object members => exact absurd rfl (hv members)
      | null => rfl
      | bool b => rfl
      | number lit => rfl
      | string s => rfl
      | array elems => rfl

/-- A member that stores no string under `token` leaves an empty token empty. -/
theorem decodeMember_token_empty (st : NibbleConfig × GoError) (member : String × JSON)
    (hm : fieldOfKey member.1 = some ConfigField.Token → ∀ s, member.2 ≠ JSON.string s)
    (hst : st.1.Token = "") : (decodeMember st member).1.Token = "" := by
  unfold decodeMember
  cases hf : fieldOfKey member.1 with
  | none => exact hst
  | some f =>
    cases hv : member.2 with
    | string s =>
      cases f with
      | Token => exact absurd hv (hm hf s)
      | WorkingDir => exact hst
    | null => exact hst
    | bool b => exact hst
    | number lit => exact hst
    | array elems => exact hst
    | object members => exact hst

/-- An object none of whose members stores a string under `token` leaves an
empty token empty. -/
theorem foldl_decodeMember_token_empty (members : List (String × JSON))
    (hm : ∀ m ∈ members, fieldOfKey m.1 = some ConfigField.Token →
      ∀ s, m.2 ≠ JSON.string s)
    (st : NibbleConfig × GoError) (hst : st.1.Token = "") :
    (members.foldl decodeMember st).1.Token = "" := by
  induction members generalizing st with
  | nil => exact hst
  | cons m ms ih =>
    rw [List.foldl_cons]
    exact ih (fun m2 h2 => hm m2 (List.mem_cons_of_mem _ h2)) _
      (decodeMember_token_empty st m (hm m (List.mem_cons_self _ _)) hst)

/-- When the file cannot be read, or its bytes are not a JSON text, or they are
the text of a value that is not an object or of an object none of whose
members stores a string under `token`, the configuration `parseConfigFile`
returns has an empty token. -/
theorem parseConfigFile_token_empty {env : Env} {path : String}
    (hbad : (env.ReadFile path).2 ≠ none ∨
      (env.ReadFile path).1 = Bytes.invalid ∨
      ∃ v, (env.ReadFile path).1 = Bytes.text v ∧
        ∀ members, v = JSON.object members →
          ∀ m ∈ members, fieldOfKey m.1 = some ConfigField.Token →
            ∀ s, m.2 ≠ JSON.string s) :
    ∃ config, (parseConfigFile env path).outcome = Outcome.ret config ∧
      config.Token = "" := by
  rcases hbad with h | h | ⟨v, h, hv⟩
  · exact ⟨{}, parseConfigFile_of_read_error h, rfl⟩
  · exact ⟨{}, parseConfigFile_of_not_object (Or.inl h), rfl⟩
  · refine ⟨_, parseConfigFile_outcome env path, ?_⟩
    rcases hrd : env.ReadFile path with ⟨data, err⟩
    rw [hrd] at h
    simp only at h
    subst h
    cases err with
    | some e => rfl
    | none =>
      cases v with
      | object members =>
        exact foldl_decodeMember_token_empty members (hv members rfl) ({}, none) rfl
      | null => rfl
      | bool b => rfl
      | number lit => rfl
      | string s => rfl
      | array elems => rfl

/-- Against a configuration with an empty token, a non-empty extracted token
is denied. -/
theorem authHandler_denied_of_empty_config {env : Env} {r : Request}
    {config : NibbleConfig} {token : String} {method : AuthMethod}
    (hcfg : (parseConfigFile env (getConfigFilePath env)).outcome = Outcome.ret config)
    (hempty : config.Token = "")
    (htok : (getAuthToken r).outcome = Outcome.ret (token, method)) (hne : token ≠ "") :
    (authHandler env {} r).outcome =
      Outcome.ret { status := some 403, SetCookie := [], Location := none } := by
  have hneq : config.Token ≠ token := by
    rw [hempty]
    exact fun h => hne h.symm
  exact authHandler_response_denied env r hcfg htok hneq

/-- C7, as stated, fails: the file `{"token":"abc","working_dir":5}` is read,
`json.Unmarshal` reports an error on it, and the request `?token=abc`, which
presents a non-empty token, is answered 302 with a session cookie. -/
theorem authHandler_type_error_config_authenticates :
    (typeErrorConfigEnv.ReadFile (getConfigFilePath typeErrorConfigEnv)).2 = none ∧
    (Unmarshal (typeErrorConfigEnv.ReadFile (getConfigFilePath typeErrorConfigEnv)).1 {}).2
      ≠ none ∧
    abcQueryRequest.Query.index tokenParamName = (["abc"], true) ∧
    (authHandler typeErrorConfigEnv {} abcQueryRequest).outcome =
      Outcome.ret
        { status := some 302
          Location := some "/"
          SetCookie := [(buildAuthCookie 0 "example.com" { Token := "abc" }).header] } := by
  decide

/-- C7, amended: when the configuration `parseConfigFile` returns has an empty
token, which it has whenever the configuration file cannot be read, or its
bytes are not a JSON text, or they are the text of a value that is not an
object or of an object none of whose members stores a string under `token`,
every request from which `getAuthToken` extracts a non-empty token is answered
403, with no `Set-Cookie` and no `Location`. -/
theorem authHandler_denied_of_unusable_config (env : Env) (r : Request)
    (token : String) (method : AuthMethod)
    (hbad : ((env.ReadFile (getConfigFilePath env)).2 ≠ none ∨
        (env.ReadFile (getConfigFilePath env)).1 = Bytes.invalid ∨
        ∃ v, (env.ReadFile (getConfigFilePath env)).1 = Bytes.text v ∧
          ∀ members, v = JSON.object members →
            ∀ m ∈ members, fieldOfKey m.1 = some ConfigField.Token →
              ∀ s, m.2 ≠ JSON.string s) ∨
      ∃ config, (parseConfigFile env (getConfigFilePath env)).outcome = Outcome.ret config ∧
        config.Token = "")
    (htok : (getAuthToken r).outcome = Outcome.ret (token, method)) (hne : token ≠ "") :
    (authHandler env {} r).outcome =
      Outcome.ret { status := some 403, SetCookie := [], Location := none } := by
  have hcfg : ∃ config,
      (parseConfigFile env (getConfigFilePath env)).outcome = Outcome.ret config ∧
        config.Token = "" := by
    rcases hbad with h | h
    · exact parseConfigFile_token_empty h
    · exact h
  obtain ⟨config, hcfg, hempty⟩ := hcfg
  exact authHandler_denied_of_empty_config hcfg hempty htok hne

/-- C7, amended, at the request `?token=wrong`: against the file
`{"token":5,"working_dir":"/srv"}`, on which `json.Unmarshal` reports a type
error and no string is stored under `token`, and against the file
`{"token":"","working_dir":5}`, which stores the empty token, the answer is
403. -/
theorem authHandler_denied_of_unusable_config_witness :
    (Unmarshal (tokenTypeErrorConfigEnv.ReadFile
      (getConfigFilePath tokenTypeErrorConfigEnv)).1 {}).2 ≠ none ∧
    (Unmarshal (emptyTokenTypeErrorConfigEnv.ReadFile
      (getConfigFilePath emptyTokenTypeErrorConfigEnv)).1 {}).2 ≠ none ∧
    (getAuthToken scenario3Request).outcome =
      Outcome.ret ("wrong", AuthMethod.QueryParam) ∧
    "wrong" ≠ "" ∧
    (authHandler tokenTypeErrorConfigEnv {} scenario3Request).outcome =
      Outcome.ret { status := some 403, SetCookie := [], Location := none } ∧
    (authHandler emptyTokenTypeErrorConfigEnv {} scenario3Request).outcome =
      Outcome.ret { status := some 403, SetCookie := [], Location := none } :=
  ⟨by decide, by decide, by decide, by decide,
    authHandler_denied_of_unusable_config tokenTypeErrorConfigEnv scenario3Request "wrong"
      AuthMethod.QueryParam
      (Or.inl (Or.inr (Or.inr ⟨JSON.object
          [("token", JSON.number "5"), ("working_dir", JSON.string "/srv")], rfl, by
        intro members hobj m hmem hfield s hs
        injection hobj with hobj
        subst hobj
        simp only [List.mem_cons, List.mem_singleton, List.not_mem_nil, or_false] at hmem
        rcases hmem with rfl | rfl
        · exact JSON.noConfusion hs
        · exact absurd hfield (by decide)⟩)))
      (by decide) (by decide),
    authHandler_denied_of_unusable_config emptyTokenTypeErrorConfigEnv scenario3Request
      "wrong" AuthMethod.QueryParam
      (Or.inr ⟨{ Token := "", WorkingDir := "" }, by decide, rfl⟩)
      (by decide) (by decide)⟩

/-- C8, as stated, fails: with no configuration file the read fails, and the
request that carries no token at all is answered 302, with a session cookie of
empty value, not 403. -/
theorem authHandler_missing_config_no_token_authenticates :
    (missingConfigEnv.ReadFile (getConfigFilePath missingConfigEnv)).2 ≠ none ∧
    (getAuthToken noTokenRequest).outcome = Outcome.ret ("", AuthMethod.None) ∧
    (authHandler missingConfigEnv {} noTokenRequest).outcome =
      Outcome.ret
        { status := some 302
          Location := some "/"
          SetCookie := [(buildAuthCookie 0 "example.com" { Token := "" }).header] } := by
  decide

/-- C8, amended: when the read of the configuration file fails, every request
from which `getAuthToken` extracts a non-empty token is answered 403, with no
`Set-Cookie` and no `Location`. -/
theorem authHandler_denied_of_missing_config (env : Env) (r : Request)
    (token : String) (method : AuthMethod)
    (hread : (env.ReadFile (getConfigFilePath env)).2 ≠ none)
    (htok : (getAuthToken r).outcome = Outcome.ret (token, method)) (hne : token ≠ "") :
    (authHandler env {} r).outcome =
      Outcome.ret { status := some 403, SetCookie := [], Location := none } :=
  authHandler_denied_of_empty_config (parseConfigFile_of_read_error hread) rfl htok hne

/-- C8, amended, with no configuration file and the request carrying the
cookie `nibble_auth_token=abc123`. -/
theorem authHandler_denied_of_missing_config_witness :
    (missingConfigEnv.ReadFile (getConfigFilePath missingConfigEnv)).2 ≠ none ∧
    (getAuthToken scenario1Request).outcome = Outcome.ret ("abc123", AuthMethod.Cookie) ∧
    "abc123" ≠ "" ∧
    (authHandler missingConfigEnv {} scenario1Request).outcome =
      Outcome.ret { status := some 403, SetCookie := [], Location := none } :=
  ⟨by decide, by decide, by decide,
    authHandler_denied_of_missing_config missingConfigEnv scenario1Request "abc123"
      AuthMethod.Cookie (by decide) (by decide) (by decide)⟩

/-! ### The session cookie -/

/-- C9: the `Domain` of the cookie is the host with its port removed only when
the host has a port: for `example.com:8080` it is `example.com`, but for the
host `example.com`, which carries no port, `net.SplitHostPort` fails, its
error is dropped, and the `Domain` is the empty string. -/
theorem buildAuthCookie_domain_without_port (now : Nat) (config : NibbleConfig) :
    (buildAuthCookie now "example.com:8080" config).Domain = "example.com" ∧
    (SplitHostPort "example.com").2.2 = some "address example.com: missing port in address" ∧
    (buildAuthCookie now "example.com" config).Domain = "" := by
  refine ⟨?_, by decide, ?_⟩
  · show (SplitHostPort "example.com:8080").1 = "example.com"
    decide
  · show (SplitHostPort "example.com").1 = ""
    decide

/-- C10: for every host, configuration and instant, the cookie
`buildAuthCookie` returns has the name `nibble_auth_token`, the configured
token as value, `MaxAge` 86400, `HttpOnly` and `Secure` set, and expires
86400 seconds, counted in nanoseconds, after the instant `time.Now()`
reported; that duration fits the 64-bit `time.Duration`. -/
theorem buildAuthCookie_fields (now : Nat) (host : String) (config : NibbleConfig) :
    (buildAuthCookie now host config).Name = "nibble_auth_token" ∧
    (buildAuthCookie now host config).Value = config.Token ∧
    (buildAuthCookie now host config).MaxAge = 86400 ∧
    (buildAuthCookie now host config).HttpOnly = true ∧
    (buildAuthCookie now host config).Secure = true ∧
    (buildAuthCookie now host config).Expires = now + 86400 * 1000000000 ∧
    Second * cookieMaxAge < 2 ^ 63 := by
  refine ⟨rfl, rfl, rfl, rfl, rfl, ?_, by decide⟩
  show now + Second * cookieMaxAge = now + 86400 * 1000000000
  have h : Second * cookieMaxAge = 86400 * 1000000000 := by decide
  rw [h]

/-! ### The configuration `parseConfigFile` returns -/

/-- C11, as stated, fails: on the file `{"token":"abc","working_dir":5}` the
read succeeds, `json.Unmarshal` reports a type error, and the configuration
`parseConfigFile` returns has the token `abc`. -/
theorem parseConfigFile_type_error_keeps_token :
    (typeErrorConfigEnv.ReadFile defaultConfigLocation).2 = none ∧
    (Unmarshal (typeErrorConfigEnv.ReadFile defaultConfigLocation).1 {}).2 =
      some ("json: cannot unmarshal number into Go struct field " ++
        "NibbleConfig.working_dir of type string") ∧
    (parseConfigFile typeErrorConfigEnv defaultConfigLocation).outcome =
      Outcome.ret { Token := "abc", WorkingDir := "" } := by
  decide

/-- C11, amended: `parseConfigFile` returns a configuration for every
environment and path; and when the file cannot be read, or its bytes are not a
JSON text, or they are the text of a value that is not an object or of an
object none of whose members stores a string under `token`, the token of that
configuration is empty. -/
theorem parseConfigFile_total_and_empty_token (env : Env) (path : String) :
    (∃ config, (parseConfigFile env path).outcome = Outcome.ret config) ∧
    (((env.ReadFile path).2 ≠ none ∨
      (env.ReadFile path).1 = Bytes.invalid ∨
      ∃ v, (env.ReadFile path).1 = Bytes.text v ∧
        ∀ members, v = JSON.object members →
          ∀ m ∈ members, fieldOfKey m.1 = some ConfigField.Token →
            ∀ s, m.2 ≠ JSON.string s) →
      ∃ config, (parseConfigFile env path).outcome = Outcome.ret config ∧
        config.Token = "") :=
  ⟨parseConfigFile_total env path, parseConfigFile_token_empty⟩

/-- C11, amended, at the file `{"token":5,"working_dir":"/srv"}`:
`json.Unmarshal` reports a type error on `token`, and the configuration has an
empty token beside the working directory that did decode. -/
theorem parseConfigFile_total_and_empty_token_witness :
    (parseConfigFile tokenTypeErrorConfigEnv defaultConfigLocation).outcome =
      Outcome.ret { Token := "", WorkingDir := "/srv" } ∧
    ∃ config,
      (parseConfigFile tokenTypeErrorConfigEnv defaultConfigLocation).outcome =
        Outcome.ret config ∧ config.Token = "" :=
  ⟨by decide,
    (parseConfigFile_total_and_empty_token tokenTypeErrorConfigEnv defaultConfigLocation).2
      (Or.inr (Or.inr ⟨JSON.object
          [("token", JSON.number "5"), ("working_dir", JSON.string "/srv")], rfl, by
        intro members hobj m hmem hfield s hs
        injection hobj with hobj
        subst hobj
        simp only [List.mem_cons, List.mem_singleton, List.not_mem_nil, or_false] at hmem
        rcases hmem with rfl | rfl
        · exact JSON.noConfusion hs
        · exact absurd hfield (by decide)⟩))⟩

/-! ### The empty secret, the channel `None`, the delay -/

/-- C12: when the configured token is the empty string and `getAuthToken`
returns the empty token on channel `None`, `authenticate` returns true and
`authHandler` answers 302 and sets one session cookie, named
`nibble_auth_token`, whose value is the empty string. -/
theorem authHandler_empty_secret_no_token (env : Env) (r : Request)
    (config : NibbleConfig) (hwf : r.QueryWF)
    (hcfg : (parseConfigFile env (getConfigFilePath env)).outcome = Outcome.ret config)
    (hempty : config.Token = "")
    (htok : (getAuthToken r).outcome = Outcome.ret ("", AuthMethod.None)) :
    (authenticate config "").outcome = Outcome.ret true ∧
    ∃ w c, (authHandler env {} r).outcome = Outcome.ret w ∧ w.status = some 302 ∧
      w.SetCookie = [c] ∧ c.Name = "nibble_auth_token" ∧ c.Value = "" := by
  obtain ⟨target, hurl⟩ := getRedirectionUrl_total hwf
  refine ⟨?_, ?_⟩
  · rw [authenticate_outcome, hempty]
    rfl
  · rw [authHandler_response env r hcfg htok hurl, if_pos hempty]
    refine ⟨_, (buildAuthCookie env.now r.Host config).header, rfl, rfl, rfl, rfl, ?_⟩
    rw [buildAuthCookie_header, hempty]
    decide

/-- C12, with no configuration file and a request that carries no cookie and
no query parameter. -/
theorem authHandler_empty_secret_no_token_witness :
    noTokenRequest.QueryWF ∧
    (parseConfigFile missingConfigEnv (getConfigFilePath missingConfigEnv)).outcome =
      Outcome.ret {} ∧
    (getAuthToken noTokenRequest).outcome = Outcome.ret ("", AuthMethod.None) ∧
    (authenticate {} "").outcome = Outcome.ret true ∧
    ∃ w c, (authHandler missingConfigEnv {} noTokenRequest).outcome = Outcome.ret w ∧
      w.status = some 302 ∧ w.SetCookie = [c] ∧ c.Name = "nibble_auth_token" ∧
      c.Value = "" :=
  ⟨by decide, by decide, by decide,
    authHandler_empty_secret_no_token missingConfigEnv noTokenRequest {}
      (by decide) (by decide) rfl (by decide)⟩

/-- C13: whenever `getAuthToken` returns the channel `None`, the token it
returns is the empty string. -/
theorem getAuthToken_none_token_empty (r : Request) (token : String)
    (h : (getAuthToken r).outcome = Outcome.ret (token, AuthMethod.None)) :
    token = "" := by
  rw [getAuthToken_outcome] at h
  cases hf : r.Cookies.find? (fun c => c.Name == cookieName) with
  | some c => simp [hf] at h
  | none =>
    rw [hf] at h
    cases hq : r.Query.lookup tokenParamName with
    | none =>
      simp [hq] at h
      exact h.symm
    | some vs =>
      cases vs with
      | nil => simp [hq] at h
      | cons q rest =>
        by_cases hq0 : q = ""
        · simp [hq, hq0] at h
          exact h.symm
        · simp [hq, hq0] at h

/-- C13, at a request that carries no cookie and no query parameter. -/
theorem getAuthToken_none_token_empty_witness :
    (getAuthToken noTokenRequest).outcome = Outcome.ret ("", AuthMethod.None) ∧
    ("" : String) = "" :=
  ⟨by decide, getAuthToken_none_token_empty noTokenRequest "" (by decide)⟩

/-- C14: every call of `authenticate` returns, and the effects it has
performed by then are one call `time.Sleep` of 100 ms (100000000 ns) and
nothing else, whatever the configuration and the token, matching or not. -/
theorem authenticate_sleeps_once (config : NibbleConfig) (token : String) :
    (authenticate config token).trace = [Event.sleep 100000000] ∧
    (authenticate config token).outcome = Outcome.ret (decide (config.Token = token)) ∧
    ((authenticate config token).trace.filter
      (fun e => match e with
        | Event.sleep _ => true
        | Event.log _ => false)).length = 1 ∧
    ∀ (config2 : NibbleConfig) (token2 : String),
      (authenticate config2 token2).trace = (authenticate config token).trace := by
  have htrace : ∀ (c : NibbleConfig) (t : String),
      (authenticate c t).trace = [Event.sleep 100000000] := fun _ _ => rfl
  refine ⟨htrace config token, ?_, ?_, ?_⟩
  · rw [authenticate_outcome]
    by_cases h : config.Token = token <;> simp [h]
  · rw [htrace]
    rfl
  · intro config2 token2
    rw [htrace, htrace]

/-! ### Disclosure of the secret, and the index expressions -/

/-- When `getAuthToken` panics, so does `authHandler`. -/
theorem authHandler_outcome_of_getAuthToken_panic (env : Env) (w : ResponseWriter)
    (r : Request) {msg : String}
    (htok : (getAuthToken r).outcome = Outcome.panic msg) :
    (authHandler env w r).outcome = Outcome.panic msg := by
  obtain ⟨config, hcfg⟩ := parseConfigFile_total env (getConfigFilePath env)
  unfold authHandler
  simp only [logLine_bind_outcome]
  rw [Go.outcome_bind_ret _ hcfg, Go.outcome_bind_panic _ htok]

/-- Every `Set-Cookie` line `authHandler` writes has as value the token
`getAuthToken` extracted from the request, as `http.SetCookie` sanitises it. -/
theorem authHandler_setCookie_value (env : Env) (r : Request) (w : ResponseWriter)
    (c : SetCookieHeader) (hout : (authHandler env {} r).outcome = Outcome.ret w)
    (hc : c ∈ w.SetCookie) :
    ∃ token method, (getAuthToken r).outcome = Outcome.ret (token, method) ∧
      c.Value = sanitizeCookieValue token := by
  obtain ⟨config, hcfg⟩ := parseConfigFile_total env (getConfigFilePath env)
  rcases htok : (getAuthToken r).outcome with ⟨token, method⟩ | msg
  · refine ⟨token, method, rfl, ?_⟩
    rcases hurl : (getRedirectionUrl r).outcome with url | msg
    · rw [authHandler_response env r hcfg htok hurl] at hout
      simp only [Outcome.ret.injEq] at hout
      subst hout
      by_cases heq : config.Token = token
      · by_cases hm : method = AuthMethod.Cookie
        · simp [heq, hm] at hc
        · simp [heq, hm] at hc
          rw [hc, buildAuthCookie_header, heq]
      · simp [heq] at hc
    · rw [authHandler_outcome env {} r hcfg htok, hurl] at hout
      by_cases heq : config.Token = token
      · simp [heq] at hout
      · simp only [if_neg heq, Outcome.ret.injEq] at hout
        subst hout
        simp [WriteHeader] at hc
  · rw [authHandler_outcome_of_getAuthToken_panic env {} r htok] at hout
    simp at hout

theorem getTokenFromUrlQueryParam_total {r : Request} (hwf : r.QueryWF) :
    ∃ res, (getTokenFromUrlQueryParam r).outcome = Outcome.ret res := by
  rw [getTokenFromUrlQueryParam_outcome]
  have hne := lookup_ne_nil_of_QueryWF hwf tokenParamName
  cases hq : r.Query.lookup tokenParamName with
  | none => exact ⟨_, rfl⟩
  | some vs =>
    cases vs with
    | nil => exact absurd hq hne
    | cons q rest =>
      by_cases hq0 : q = ""
      · exact ⟨("", some "Token not found in URL query params."), by simp [hq0]⟩
      · exact ⟨(q, none), by simp [hq0]⟩

/-- C15, as stated, fails: with the token `a;b` configured and the request
`?token=a%3Bb`, which presents the token `a;b`, the answer carries a
`Set-Cookie` whose value is `ab`, not the token the request presented. -/
theorem authHandler_cookie_value_sanitised :
    (getAuthToken semicolonTokenRequest).outcome =
      Outcome.ret ("a;b", AuthMethod.QueryParam) ∧
    ∃ w c, (authHandler semicolonTokenEnv {} semicolonTokenRequest).outcome =
        Outcome.ret w ∧
      w.SetCookie = [c] ∧ c.Value = "ab" ∧ c.Value ≠ "a;b" :=
  ⟨by decide,
    { status := some 302
      Location := some "/"
      SetCookie := [(buildAuthCookie 0 "example.com" { Token := "a;b" }).header] },
    (buildAuthCookie 0 "example.com" { Token := "a;b" }).header,
    by decide, rfl, by decide, by decide⟩

/-- C15, amended: for every request and any two environments whose configured
tokens both differ from the token extracted from the request, `authHandler`
gives the same response, 403 with no `Set-Cookie` and no `Location`; and for
every environment, every `Set-Cookie` line in a response of `authHandler` has
as value the token extracted from the request as `http.SetCookie` sanitises
a cookie value, which is that token itself when all its bytes are valid in a
cookie value and none is a space or a comma. -/
theorem authHandler_no_disclosure (env1 env2 : Env) (r : Request)
    (config1 config2 : NibbleConfig) (token : String) (method : AuthMethod)
    (hcfg1 : (parseConfigFile env1 (getConfigFilePath env1)).outcome = Outcome.ret config1)
    (hcfg2 : (parseConfigFile env2 (getConfigFilePath env2)).outcome = Outcome.ret config2)
    (htok : (getAuthToken r).outcome = Outcome.ret (token, method))
    (hne1 : config1.Token ≠ token) (hne2 : config2.Token ≠ token) :
    (authHandler env1 {} r).outcome = (authHandler env2 {} r).outcome ∧
    (authHandler env1 {} r).outcome =
      Outcome.ret { status := some 403, SetCookie := [], Location := none } ∧
    ∀ (env : Env) (w : ResponseWriter) (c : SetCookieHeader),
      (authHandler env {} r).outcome = Outcome.ret w → c ∈ w.SetCookie →
        c.Value = sanitizeCookieValue token ∧
        ((∀ ch ∈ token.data, validCookieValueByte ch = true ∧ ch ≠ ' ' ∧ ch ≠ ',') →
          c.Value = token) := by
  have h1 := authHandler_response_denied env1 r hcfg1 htok hne1
  have h2 := authHandler_response_denied env2 r hcfg2 htok hne2
  refine ⟨h1.trans h2.symm, h1, ?_⟩
  intro env w c hout hc
  obtain ⟨token2, method2, htok2, hval⟩ := authHandler_setCookie_value env r w c hout hc
  rw [htok] at htok2
  simp only [Outcome.ret.injEq, Prod.mk.injEq] at htok2
  rw [← htok2.1] at hval
  refine ⟨hval, ?_⟩
  intro hvalid
  rw [hval, sanitizeCookieValue_of_valid token hvalid]

/-- C15, amended, at the request `?token=abc123&redirect_to=/dashboard`:
without a configuration file and with the token `abc` configured the response
is the same 403, and with the token `abc123` configured the `Set-Cookie` line
has the value `abc123` the request presented. -/
theorem authHandler_no_disclosure_witness :
    (authHandler missingConfigEnv {} scenario2Request).outcome =
      (authHandler typeErrorConfigEnv {} scenario2Request).outcome ∧
    (authHandler missingConfigEnv {} scenario2Request).outcome =
      Outcome.ret { status := some 403, SetCookie := [], Location := none } ∧
    ∃ w c, (authHandler scenarioEnv {} scenario2Request).outcome = Outcome.ret w ∧
      w.SetCookie = [c] ∧ c.Value = "abc123" :=
  have h := authHandler_no_disclosure missingConfigEnv typeErrorConfigEnv scenario2Request
    {} { Token := "abc" } "abc123" AuthMethod.QueryParam
    (by decide) (by decide) (by decide) (by decide) (by decide)
  ⟨h.1, h.2.1,
    ⟨{ status := some 302
       Location := some "/dashboard"
       SetCookie := [(buildAuthCookie 0 "example.com" { Token := "abc123" }).header] },
      (buildAuthCookie 0 "example.com" { Token := "abc123" }).header, by decide, rfl,
      (h.2.2 scenarioEnv
        { status := some 302
          Location := some "/dashboard"
          SetCookie := [(buildAuthCookie 0 "example.com" { Token := "abc123" }).header] }
        (buildAuthCookie 0 "example.com" { Token := "abc123" }).header
        (by decide) (by decide)).2 (by decide)⟩⟩

/-- C16: under the precondition that every key of the query map has at least
one value, `getTokenFromUrlQueryParam` and `getRedirectionUrl` return for
every request: neither index expression panics. -/
theorem query_index_in_range (r : Request) (hwf : r.QueryWF) :
    (∃ res, (getTokenFromUrlQueryParam r).outcome = Outcome.ret res) ∧
    (∃ url, (getRedirectionUrl r).outcome = Outcome.ret url) :=
  ⟨getTokenFromUrlQueryParam_total hwf, getRedirectionUrl_total hwf⟩

/-- C16, at the request `?token=abc123&redirect_to=/dashboard`. -/
theorem query_index_in_range_witness :
    scenario2Request.QueryWF ∧
    (getTokenFromUrlQueryParam scenario2Request).outcome = Outcome.ret ("abc123", none) ∧
    (getRedirectionUrl scenario2Request).outcome = Outcome.ret "/dashboard" ∧
    (∃ res, (getTokenFromUrlQueryParam scenario2Request).outcome = Outcome.ret res) ∧
    (∃ url, (getRedirectionUrl scenario2Request).outcome = Outcome.ret url) :=
  ⟨by decide, by decide, by decide, query_index_in_range scenario2Request (by decide)⟩

/-- The precondition of C16 is needed: on a query map that holds the two keys
with no value under them, both functions panic on the index expression. -/
theorem query_index_panics_without_values :
    ¬ noValueQueryRequest.QueryWF ∧
    (getTokenFromUrlQueryParam noValueQueryRequest).outcome =
      Outcome.panic "runtime error: index out of range [0] with length 0" ∧
    (getRedirectionUrl noValueQueryRequest).outcome =
      Outcome.panic "runtime error: index out of range [0] with length 0" := by
  decide

end AuthService
